import Mathlib

/-!
Verification of the Valkey vector-database adapter
(`cognee_community_vector_adapter_valkey`): a shallow embedding of
`valkey_adapter.py` and `utils.py` together with theorems about the
adapter's search, schema, codec and mutation operations.

Modelling conventions:
* Python dynamic values are embedded as the inductive type `PyVal`
  (numbers as `Int`/`Rat`, bytes as lists of byte values).
* Python exceptions are embedded as `Except PyErr`; an operation that can
  raise returns `Except PyErr α`.
* The remote Valkey server and the external libraries (glide transport,
  the cognee embedding engine, `json`) are abstracted as an environment
  `Env` of total oracle functions plus a `Store` recording which FT
  indexes and which document keys exist.  Commands issued to the server
  are recorded in an `Effect` trace so that "issues no command" claims
  are expressible.
* `ScoredResult` and `DataPoint` are the external cognee models, carried
  here with exactly the attributes the adapter reads/writes
  (id / payload / score, and id / embeddable text / payload).
-/

/-- A dynamic (Python) value as it appears in the adapter's data paths:
JSON-like data, byte strings from the wire, and UUID identifiers. -/
inductive PyVal where
  | none : PyVal
  | bool (b : Bool) : PyVal
  | int (n : Int) : PyVal
  | float (q : Rat) : PyVal
  | str (s : String) : PyVal
  | bytes (bs : List Nat) : PyVal
  | uuid (s : String) : PyVal
  | list (xs : List PyVal) : PyVal
  | tuple (xs : List PyVal) : PyVal
  | dict (kvs : List (PyVal × PyVal)) : PyVal
deriving Repr

mutual

/-- Structural equality on dynamic values; agrees with Python `==` on the
byte-string and text keys the adapter ever compares. -/
def pyBeq : PyVal → PyVal → Bool
  | .none, .none => true
  | .bool a, .bool b => a == b
  | .int a, .int b => a == b
  | .float a, .float b => a == b
  | .str a, .str b => a == b
  | .bytes a, .bytes b => a == b
  | .uuid a, .uuid b => a == b
  | .list a, .list b => pyBeqList a b
  | .tuple a, .tuple b => pyBeqList a b
  | .dict a, .dict b => pyBeqKV a b
  | _, _ => false

def pyBeqList : List PyVal → List PyVal → Bool
  | [], [] => true
  | x :: xs, y :: ys => pyBeq x y && pyBeqList xs ys
  | _, _ => false

def pyBeqKV : List (PyVal × PyVal) → List (PyVal × PyVal) → Bool
  | [], [] => true
  | (k1, v1) :: xs, (k2, v2) :: ys => pyBeq k1 k2 && pyBeq v1 v2 && pyBeqKV xs ys
  | _, _ => false

end

instance : BEq PyVal := ⟨pyBeq⟩

/-- Python `dict.get(k)` on the embedded association list: the value under
the first key equal to `k`, or `None` when absent. -/
def pyGet (kvs : List (PyVal × PyVal)) (k : PyVal) : PyVal :=
  match kvs.find? (fun kv => pyBeq kv.1 k) with
  | some kv => kv.2
  | Option.none => PyVal.none

/-- Python `k in d` membership test on the embedded dict. -/
def pyMem (k : PyVal) (kvs : List (PyVal × PyVal)) : Bool :=
  kvs.any (fun kv => pyBeq kv.1 k)

/-- The byte values of an ASCII string literal (used for the `b"..."`
field keys the decoder probes). -/
def asciiBytes (s : String) : List Nat := s.data.map Char.toNat

/-- UTF-8 decoding of a byte string, modelled on the ASCII range: byte
sequences that are pure ASCII decode to the corresponding text; any other
sequence is reported as undecodable (multi-byte UTF-8 is conservatively
sent to the `str()` fallback below — no stored key or field the adapter
reads is non-ASCII, and no claim depends on the fallback's text). -/
def asciiDecode? (bs : List Nat) : Option String :=
  if bs.all (fun b => b < 128) then some (String.mk (bs.map Char.ofNat)) else Option.none

/-- The `str(x)` fallback text for an undecodable byte string (its exact
content is irrelevant to every claim; only that it is a string). -/
def pyByteRepr (bs : List Nat) : String := "b<" ++ toString bs.length ++ " bytes>"

/-- `utils._b2s`: byte strings decode to UTF-8 text, falling back to
`str(x)` on failure; every other value is returned unchanged. -/
def _b2s : PyVal → PyVal
  | .bytes bs =>
      match asciiDecode? bs with
      | some s => .str s
      | Option.none => .str (pyByteRepr bs)
  | x => x

mutual

/-- `utils._serialize_for_json` (mutual with its list/dict recursions):
UUID leaves become strings, dict values and list elements are recursed,
everything else (dict keys included) passes through unchanged. -/
def _serialize_for_json : PyVal → PyVal
  | .uuid s => .str s
  | .dict kvs => .dict (serializeKVs kvs)
  | .list xs => .list (serializeList xs)
  | x => x

def serializeList : List PyVal → List PyVal
  | [] => []
  | x :: xs => _serialize_for_json x :: serializeList xs

def serializeKVs : List (PyVal × PyVal) → List (PyVal × PyVal)
  | [] => []
  | (k, v) :: kvs => (k, _serialize_for_json v) :: serializeKVs kvs

end

/-- Python exceptions the adapter's data paths can raise or propagate. -/
inductive PyErr where
  | typeError : PyErr
  | valueError : PyErr
  | attributeError : PyErr
  | missingQueryParameter : PyErr
  | collectionNotFound (msg : String) : PyErr
  | requestError (msg : String) : PyErr
  | ftCreateFailed (msg : String) : PyErr
deriving Repr, DecidableEq

/-- Boolean success test for an embedded fallible computation. -/
def isOkB {ε α : Type} : Except ε α → Bool
  | .ok _ => true
  | .error _ => false

/-- Whitespace characters stripped by Python `float(str)`. -/
def isWs (c : Char) : Bool :=
  c == ' ' || c == '\t' || c == '\n' || c == '\r'

def isDigitB (c : Char) : Bool := 48 ≤ c.toNat && c.toNat ≤ 57

def natOfDigits (ds : List Char) : Nat :=
  ds.foldl (fun a c => a * 10 + (c.toNat - 48)) 0

/-- Mantissa of a Python float literal: `digits`, `digits.digits`,
`.digits` or `digits.`; returns its value and the unconsumed tail. -/
def parseMantissa (cs : List Char) : Option (Rat × List Char) :=
  let ip := cs.takeWhile isDigitB
  let rest := cs.drop ip.length
  match rest with
  | '.' :: rest2 =>
      let fp := rest2.takeWhile isDigitB
      if ip.length = 0 && fp.length = 0 then Option.none
      else
        some ((natOfDigits ip : Rat) + (natOfDigits fp : Rat) / ((10 : Rat) ^ fp.length),
              rest2.drop fp.length)
  | _ =>
      if ip.length = 0 then Option.none else some ((natOfDigits ip : Rat), rest)

/-- Optional exponent part `e[±]digits` of a Python float literal. -/
def parseExponent (cs : List Char) : Option (Int × List Char) :=
  match cs with
  | 'e' :: rest | 'E' :: rest =>
      let sr : Int × List Char :=
        match rest with
        | '+' :: r => (1, r)
        | '-' :: r => (-1, r)
        | r => (1, r)
      let ds := sr.2.takeWhile isDigitB
      if ds.length = 0 then Option.none
      else some (sr.1 * (natOfDigits ds : Int), sr.2.drop ds.length)
  | _ => Option.none

def ratPow10 (e : Int) : Rat :=
  if 0 ≤ e then ((10 : Rat) ^ e.toNat) else 1 / ((10 : Rat) ^ (-e).toNat)

/-- Python `float(<string>)` on decimal literals: optional surrounding
whitespace, optional sign, mantissa, optional exponent.  The special
literals `inf`/`nan` and digit underscores are conservatively rejected
(no claim depends on them); exact rational arithmetic stands in for
IEEE-754 rounding, which no claim depends on either. -/
def parsePyFloat (s : String) : Option Rat :=
  let cs := (s.data.dropWhile isWs).reverse.dropWhile isWs |>.reverse
  let sr : Rat × List Char :=
    match cs with
    | '+' :: r => (1, r)
    | '-' :: r => (-1, r)
    | r => (1, r)
  match parseMantissa sr.2 with
  | Option.none => Option.none
  | some (m, rest) =>
      match rest with
      | [] => some (sr.1 * m)
      | _ =>
          match parseExponent rest with
          | some (e, []) => some (sr.1 * m * ratPow10 e)
          | _ => Option.none

/-- Python `float(x)` on a dynamic value: numbers and booleans convert,
strings and byte strings are parsed as float literals (`ValueError` when
unparseable), every other type raises `TypeError`. -/
def pyFloat : PyVal → Except PyErr Rat
  | .bool b => .ok (if b then 1 else 0)
  | .int n => .ok (n : Rat)
  | .float q => .ok q
  | .str s =>
      match parsePyFloat s with
      | some q => .ok q
      | Option.none => .error .valueError
  | .bytes bs =>
      match asciiDecode? bs with
      | some s =>
          match parsePyFloat s with
          | some q => .ok q
          | Option.none => .error .valueError
      | Option.none => .error .valueError
  | _ => .error .typeError

/-- The cognee `ScoredResult` model as the adapter populates it:
an identifier, a decoded payload mapping, and a nullable score. -/
structure ScoredResult where
  id : PyVal
  payload : List (PyVal × PyVal)
  score : Option Rat
deriving Repr

/-- Field lookup used throughout the decoder:
`fields.get(b"x") if b"x" in fields else fields.get("x")`. -/
def fieldsGet (fkvs : List (PyVal × PyVal)) (bk sk : PyVal) : PyVal :=
  if pyMem bk fkvs then pyGet fkvs bk else pyGet fkvs sk

def bIdKey : PyVal := .bytes (asciiBytes "id")
def bScoreKey : PyVal := .bytes (asciiBytes "__vector_score")
def bPayloadKey : PyVal := .bytes (asciiBytes "payload_data")

/-- One iteration of the decoder's loop body over `(key, fields)`.
A non-dict `fields` raises exactly where Python does: `b"id" in fields`
is a `TypeError` for scalars and text, and `.get` is an `AttributeError`
for lists, tuples and byte strings.  `json.loads` is abstracted as the
total parse oracle `jsonLoads` (parsed value, or failure standing for a
caught `JSONDecodeError`). -/
def decodeEntry (jsonLoads : String → Option PyVal) (key fields : PyVal) :
    Except PyErr ScoredResult :=
  match fields with
  | .dict fkvs =>
      let key_str := _b2s key
      let raw_id := fieldsGet fkvs bIdKey (.str "id")
      let result_id := if pyBeq raw_id PyVal.none then key_str else _b2s raw_id
      let sv := fieldsGet fkvs bScoreKey (.str "__vector_score")
      match (if pyBeq sv PyVal.none then Except.ok Option.none
             else (pyFloat sv).map some) with
      | .error e => .error e
      | .ok score =>
          let payload_raw := fieldsGet fkvs bPayloadKey (.str "payload_data")
          let payload : List (PyVal × PyVal) :=
            if pyBeq payload_raw PyVal.none then []
            else
              match _b2s payload_raw with
              | .str s =>
                  match jsonLoads s with
                  | some (.dict d) => d
                  | some obj => [(.str "_payload", obj)]
                  | Option.none => [(.str "_payload_raw", .str s)]
              | _ => []
          .ok ⟨result_id, payload, score⟩
  | .list _ => .error .attributeError
  | .tuple _ => .error .attributeError
  | .bytes _ => .error .attributeError
  | _ => .error .typeError

/-- The decoder's loop over the response mapping; the first raising entry
aborts the whole call, as in Python. -/
def decodeEntries (jsonLoads : String → Option PyVal) :
    List (PyVal × PyVal) → Except PyErr (List ScoredResult)
  | [] => .ok []
  | (k, f) :: rest =>
      match decodeEntry jsonLoads k f with
      | .error e => .error e
      | .ok r =>
          match decodeEntries jsonLoads rest with
          | .error e => .error e
          | .ok rs => .ok (r :: rs)

/-- Decoder body shared by the list and tuple cases of the guard
`not isinstance(raw, (list, tuple)) or len(raw) < 2 or
not isinstance(raw[1], dict)`. -/
def buildFromSeq (jsonLoads : String → Option PyVal) (xs : List PyVal) :
    Except PyErr (List ScoredResult) :=
  if xs.length < 2 then .ok []
  else
    match (xs[1]? : Option PyVal) with
    | some (.dict mapping) => decodeEntries jsonLoads mapping
    | _ => .ok []

/-- `utils._build_scored_results_from_ft`: decode a raw FT search
response into scored results; a non-sequence input, a short sequence, or
a non-mapping second element yields the empty list. -/
def _build_scored_results_from_ft (jsonLoads : String → Option PyVal)
    (raw : PyVal) : Except PyErr (List ScoredResult) :=
  match raw with
  | .list xs => buildFromSeq jsonLoads xs
  | .tuple xs => buildFromSeq jsonLoads xs
  | _ => .ok []

/-- `ValkeyAdapter._index_name`. -/
def _index_name (collection : String) : String := "index:" ++ collection

/-- `ValkeyAdapter._key_prefix`. -/
def _key_prefix (collection : String) : String := "vdb:" ++ collection ++ ":"

/-- `ValkeyAdapter._key`: fully-qualified document key, key prefix plus id. -/
def _key (collection : String) (pid : String) : String :=
  _key_prefix collection ++ pid

/-- The cognee `DataPoint` model as the adapter consumes it: an
identifier (stringified UUID), the embeddable text
(`DataPoint.get_embeddable_data`), and the `model_dump()` payload. -/
structure DataPoint where
  id : String
  text : String
  payload : PyVal

/-- Remote state of the Valkey server: which FT indexes exist and which
JSON documents are stored (key, document). -/
structure Store where
  indexes : List String
  docs : List (String × PyVal)
deriving Repr

/-- Commands the adapter sends to the server, plus calls into the
embedding engine; recorded as a trace so that claims of the form
"issues no X" are expressible. -/
inductive Effect where
  | ftInfoCmd (index : String) : Effect
  | ftCreateCmd (index : String) : Effect
  | ftSearchCmd (index : String) (query : String) : Effect
  | jsonSetCmd (key : String) (doc : PyVal) : Effect
  | delCmd (keys : List String) : Effect
  | embedCall (texts : List String) : Effect
deriving Repr

/-- The adapter's external collaborators, abstracted as total oracles:
`embedOne` is the embedding engine per text (`embed_text` maps it over a
batch); `numDocs` is the `num_docs` field of `FT.INFO`; `infoFault`
injects non-"index not found" failures of `FT.INFO` (network errors and
the like); `createFault` likewise for a non-OK `FT.CREATE`
acknowledgement; `rawSearch` is the raw `FT.SEARCH` reply for
(index, query vector, limit, with_vector) — the float32 byte packing of
the vector (`_to_float32_bytes`) is absorbed into this oracle;
`jsonLoads`/`dumps` abstract the `json` module. -/
structure Env where
  embedOne : String → List Rat
  numDocs : String → Int
  infoFault : String → Option String
  createFault : String → Option String
  rawSearch : String → List Rat → Int → Bool → PyVal
  jsonLoads : String → Option PyVal
  dumps : PyVal → String

/-- Result of `ft.info(client, index)`: the injected fault if any,
"Index not found" when the index does not exist, else its `num_docs`. -/
def ftInfoRes (env : Env) (st : Store) (index : String) : Except String Int :=
  match env.infoFault index with
  | some msg => .error msg
  | Option.none =>
      if st.indexes.contains index then .ok (env.numDocs index)
      else .error "Index not found"

/-- `ValkeyAdapter.has_collection`: `ft.info` wrapped in
`try/except Exception: return False`.  (The connection itself is
modelled as established; the Connection Manager is outside every claim.)
Returns the boolean together with the issued command trace. -/
def has_collection (env : Env) (st : Store) (collection_name : String) :
    Bool × List Effect :=
  (isOkB (ftInfoRes env st (_index_name collection_name)),
   [.ftInfoCmd (_index_name collection_name)])

/-- `ValkeyAdapter.create_collection`: no-op if the collection already
exists, otherwise one `FT.CREATE` (tag field `id`, HNSW/cosine/float32
vector field, documents scoped to the collection's key prefix — schema
details live on the remote side and are not claim-relevant); a non-OK
acknowledgement raises.  Returns (result, new store, trace). -/
def create_collection (env : Env) (st : Store) (collection_name : String) :
    Except PyErr Unit × Store × List Effect :=
  if (has_collection env st collection_name).1 then
    (.ok (), st, (has_collection env st collection_name).2)
  else
    match env.createFault (_index_name collection_name) with
    | some msg =>
        (.error (.ftCreateFailed msg), st,
         (has_collection env st collection_name).2
           ++ [.ftCreateCmd (_index_name collection_name)])
    | Option.none =>
        (.ok (), { st with indexes := _index_name collection_name :: st.indexes },
         (has_collection env st collection_name).2
           ++ [.ftCreateCmd (_index_name collection_name)])

/-- One storage document as `create_data_points` builds it:
`{"id": str(id), "vector": embedding, "payload_data": json.dumps(payload)}`. -/
def buildDoc (env : Env) (p : DataPoint) (vec : List Rat) : PyVal :=
  PyVal.dict
    [(.str "id", .str p.id),
     (.str "vector", .list (vec.map PyVal.float)),
     (.str "payload_data", .str (env.dumps (_serialize_for_json p.payload)))]

/-- `ValkeyAdapter.create_data_points`: raises `CollectionNotFoundError`
when the collection is absent; otherwise embeds the batch in one engine
call and writes every document (`JSON.SET` upserts under the
deterministic key). -/
def create_data_points (env : Env) (st : Store) (collection_name : String)
    (data_points : List DataPoint) : Except PyErr Unit × Store × List Effect :=
  if (has_collection env st collection_name).1 = false then
    (.error (.collectionNotFound ("Collection " ++ collection_name ++ " not found!")),
     st, (has_collection env st collection_name).2)
  else
    let texts := data_points.map (fun p => p.text)
    let writes := (data_points.zip (texts.map env.embedOne)).map
      (fun pv => (_key collection_name pv.1.id, buildDoc env pv.1 pv.2))
    let docs' := writes.foldl
      (fun d kv =>
        if d.any (fun e => e.1 == kv.1) then
          d.map (fun e => if e.1 == kv.1 then kv else e)
        else d ++ [kv])
      st.docs
    (.ok (), { st with docs := docs' },
     (has_collection env st collection_name).2
       ++ [.embedCall texts] ++ writes.map (fun kv => .jsonSetCmd kv.1 kv.2))

/-- The KNN query text `f"*=>[KNN {limit} @vector ${vector_param_name}]"`. -/
def knnQuery (limit : Int) : String :=
  "*=>[KNN " ++ toString limit ++ " @vector $query_vector]"

/-- The query-vector resolution of `search`: the supplied vector, or the
embedding of the query text when no vector was given (with the engine
call it records); the both-`None` case is rejected by the caller before
this point. -/
def searchVec (env : Env) (qt : Option String) (qv : Option (List Rat)) :
    List Rat × List Effect :=
  match qv with
  | some v => (v, [])
  | Option.none =>
      match qt with
      | some t => (env.embedOne t, [.embedCall [t]])
      | Option.none => ([], [])   -- unreachable: both-None rejected by the caller

/-- Tail of `ValkeyAdapter.search` from the `limit <= 0` check onward:
resolve the query vector (embedding the text only when no vector was
supplied), issue `FT.SEARCH` with the resolved limit, and decode the raw
reply with the Document Codec, whose exception propagates unchanged. -/
def searchWithLimit (env : Env) (coll : String) (qt : Option String)
    (qv : Option (List Rat)) (lim : Int) (with_vector : Bool)
    (tr : List Effect) : Except PyErr (List ScoredResult) × List Effect :=
  if lim ≤ 0 then (.ok [], tr)
  else
    (_build_scored_results_from_ft env.jsonLoads
       (env.rawSearch (_index_name coll) (searchVec env qt qv).1 lim with_vector),
     tr ++ (searchVec env qt qv).2 ++ [.ftSearchCmd (_index_name coll) (knnQuery lim)])

/-- `ValkeyAdapter.search`: raises `MissingQueryParameterError` when both
query forms are `None`; returns `[]` when the collection is absent;
substitutes `num_docs` from `FT.INFO` when `limit` is `None`; returns
`[]` immediately when the resolved limit is not positive; otherwise runs
the KNN query. -/
def search (env : Env) (st : Store) (collection_name : String)
    (query_text : Option String) (query_vector : Option (List Rat))
    (limit : Option Int) (with_vector : Bool) :
    Except PyErr (List ScoredResult) × List Effect :=
  match query_text, query_vector with
  | Option.none, Option.none => (.error .missingQueryParameter, [])
  | qt, qv =>
      if (has_collection env st collection_name).1 = false then
        (.ok [], (has_collection env st collection_name).2)
      else
        match limit with
        | some l =>
            searchWithLimit env collection_name qt qv l with_vector
              (has_collection env st collection_name).2
        | Option.none =>
            match ftInfoRes env st (_index_name collection_name) with
            | .error msg =>
                (.error (.requestError msg),
                 (has_collection env st collection_name).2
                   ++ [.ftInfoCmd (_index_name collection_name)])
            | .ok n =>
                searchWithLimit env collection_name qt qv n with_vector
                  ((has_collection env st collection_name).2
                    ++ [.ftInfoCmd (_index_name collection_name)])

/-- Python `a < b` on nullable floats: a `None` on either side is a
`TypeError`, exactly as in `result.score < score_threshold`. -/
def pyLtScore : Option Rat → Option Rat → Except PyErr Bool
  | some a, some b => .ok (decide (a < b))
  | _, _ => .error .typeError

/-- The threshold filter of `batch_search`:
`[result for result in result_group if result.score < score_threshold]`,
raising at the first incomparable pair. -/
def pyFilterScore (thr : Option Rat) :
    List ScoredResult → Except PyErr (List ScoredResult)
  | [] => .ok []
  | r :: rs =>
      match pyLtScore r.score thr with
      | .error e => .error e
      | .ok keep =>
          match pyFilterScore thr rs with
          | .error e => .error e
          | .ok rest => .ok (if keep then r :: rest else rest)

/-- `asyncio.gather` over fallible results: all results in input order,
or the first exception. -/
def gatherExcept {α : Type} : List (Except PyErr α) → Except PyErr (List α)
  | [] => .ok []
  | .error e :: _ => .error e
  | .ok a :: rest =>
      match gatherExcept rest with
      | .error e => .error e
      | .ok xs => .ok (a :: xs)

/-- The outer list comprehension of `batch_search`: filter each query's
result group by the score threshold. -/
def filterAll (thr : Option Rat) :
    List (List ScoredResult) → Except PyErr (List (List ScoredResult))
  | [] => .ok []
  | g :: gs =>
      match pyFilterScore thr g with
      | .error e => .error e
      | .ok g' =>
          match filterAll thr gs with
          | .error e => .error e
          | .ok gs' => .ok (g' :: gs')

/-- The per-vector `search` tasks `batch_search` dispatches: one
`search` call per embedded query text, in input order. -/
def batchRuns (env : Env) (st : Store) (collection_name : String)
    (query_texts : List String) (limit : Option Int) (with_vectors : Bool) :
    List (Except PyErr (List ScoredResult) × List Effect) :=
  (query_texts.map env.embedOne).map
    (fun v => search env st collection_name Option.none (some v) limit with_vectors)

/-- The command trace of a `batch_search` that passed the existence
check: the probe, one batch embedding call, and the concurrent
searches' own commands. -/
def batchTrace (env : Env) (st : Store) (collection_name : String)
    (query_texts : List String) (limit : Option Int) (with_vectors : Bool) :
    List Effect :=
  (has_collection env st collection_name).2 ++ [.embedCall query_texts]
    ++ ((batchRuns env st collection_name query_texts limit with_vectors).map
          Prod.snd).flatten

/-- `ValkeyAdapter.batch_search`: flat `[]` when the collection is
absent; otherwise embed all query texts in one engine call, run one
`search` per vector, and filter each result group by
`score < score_threshold`. -/
def batch_search (env : Env) (st : Store) (collection_name : String)
    (query_texts : List String) (limit : Option Int) (with_vectors : Bool)
    (score_threshold : Option Rat) :
    Except PyErr (List (List ScoredResult)) × List Effect :=
  if (has_collection env st collection_name).1 = false then
    (.ok [], (has_collection env st collection_name).2)
  else
    match gatherExcept ((batchRuns env st collection_name query_texts limit
        with_vectors).map Prod.fst) with
    | .error e =>
        (.error e, batchTrace env st collection_name query_texts limit with_vectors)
    | .ok groups =>
        match filterAll score_threshold groups with
        | .error e =>
            (.error e, batchTrace env st collection_name query_texts limit with_vectors)
        | .ok filtered =>
            (.ok filtered, batchTrace env st collection_name query_texts limit with_vectors)

/-- Valkey `DEL key...` over the stored documents: the number of keys
that existed and were removed (a duplicate key in the argument list is
counted once), together with the surviving documents. -/
def delKeys : List String → List (String × PyVal) → Nat × List (String × PyVal)
  | [], docs => (0, docs)
  | k :: ks, docs =>
      let hit : Nat := if docs.any (fun kv => kv.1 == k) then 1 else 0
      let rest := delKeys ks (docs.filter (fun kv => !(kv.1 == k)))
      (hit + rest.1, rest.2)

/-- `ValkeyAdapter.delete_data_points`: map the ids to fully-qualified
keys, issue one bulk `DEL`, and return `{"deleted": <count>}` with the
count the server reports. -/
def delete_data_points (_env : Env) (st : Store) (collection_name : String)
    (data_point_ids : List String) : Except PyErr PyVal × Store × List Effect :=
  let keys := data_point_ids.map (fun i => _key collection_name i)
  let r := delKeys keys st.docs
  (.ok (PyVal.dict [(.str "deleted", .int (r.1 : Int))]),
   { st with docs := r.2 }, [.delCmd keys])

/-! Concrete instances used by the witness theorems. -/

/-- A trivial JSON parse oracle (every string unparseable). -/
def jl0 : String → Option PyVal := fun _ => Option.none

/-- A fault-free environment with one-dimensional embeddings, three
documents per index, and empty search replies. -/
def env0 : Env where
  embedOne := fun _ => [(1 : Rat)]
  numDocs := fun _ => 3
  infoFault := fun _ => Option.none
  createFault := fun _ => Option.none
  rawSearch := fun _ _ _ _ => PyVal.none
  jsonLoads := jl0
  dumps := fun _ => ""

/-- Like `env0` but every index reports zero documents. -/
def envZero : Env where
  embedOne := fun _ => [(1 : Rat)]
  numDocs := fun _ => 0
  infoFault := fun _ => Option.none
  createFault := fun _ => Option.none
  rawSearch := fun _ _ _ _ => PyVal.none
  jsonLoads := jl0
  dumps := fun _ => ""

/-- The empty server. -/
def st0 : Store := ⟨[], []⟩

/-- A server holding exactly the index of collection `c`. -/
def st1 : Store := ⟨["index:c"], []⟩

/-- A server holding the index of `c` and one document under it. -/
def stDocs : Store := ⟨["index:c"], [("vdb:c:a", PyVal.none)]⟩

/-! Helper lemmas. -/

/-- When `has_collection` reports true, `FT.INFO` on that index succeeds
and returns the environment's document count. -/
theorem ftInfoRes_of_has (env : Env) (st : Store) (coll : String)
    (hex : (has_collection env st coll).1 = true) :
    ftInfoRes env st (_index_name coll) = .ok (env.numDocs (_index_name coll)) := by
  have hex' : isOkB (ftInfoRes env st (_index_name coll)) = true := hex
  unfold ftInfoRes at hex' ⊢
  cases hf : env.infoFault (_index_name coll) with
  | some msg => rw [hf] at hex'; simp [isOkB] at hex'
  | none =>
      rw [hf] at hex'
      by_cases hc : _index_name coll ∈ st.indexes
      · simp [hc]
      · simp [hc, isOkB] at hex'

/-- Claim C1: a `search` call in which both `query_text` and
`query_vector` are `None` raises `MissingQueryParameterError` before any
command is issued: the result is the error with an empty command trace. -/
theorem search_missing_query_param (env : Env) (st : Store) (coll : String)
    (limit : Option Int) (wv : Bool) :
    search env st coll Option.none Option.none limit wv =
      (.error .missingQueryParameter, []) := rfl

/-- Claim C2: when the collection does not exist (`has_collection`
false) and a query text or vector is supplied, `search` returns the
empty result list without error; the only command issued is the
existence probe. -/
theorem search_absent_collection (env : Env) (st : Store) (coll : String)
    (qt : Option String) (qv : Option (List Rat)) (limit : Option Int) (wv : Bool)
    (hq : qt.isSome ∨ qv.isSome)
    (habs : (has_collection env st coll).1 = false) :
    search env st coll qt qv limit wv =
      (.ok [], [.ftInfoCmd (_index_name coll)]) := by
  rcases qt with _ | t <;> rcases qv with _ | v
  · simp at hq
  all_goals
    unfold search
    rw [habs]
    simp [has_collection]

/-- Claim C2 witness. -/
theorem search_absent_collection_witness :
    ((Option.some "q").isSome ∨ (Option.none : Option (List Rat)).isSome) ∧
    search env0 st0 "c" (some "q") Option.none (some 5) false =
      (.ok [], [.ftInfoCmd "index:c"]) :=
  ⟨Or.inl rfl,
   search_absent_collection env0 st0 "c" (some "q") Option.none (some 5) false
     (Or.inl rfl) rfl⟩

/-- Claim C7: `has_collection` is a total boolean probe — it is true
exactly when the `FT.INFO` metadata query succeeds, so any failure of
that query (an injected fault or "index not found") yields `false`
rather than an exception; the probe is the only command issued. -/
theorem has_collection_soft (env : Env) (st : Store) (name : String) :
    ((has_collection env st name).1 = true ↔
      ∃ n, ftInfoRes env st (_index_name name) = .ok n) ∧
    (has_collection env st name).2 = [.ftInfoCmd (_index_name name)] := by
  refine ⟨?_, rfl⟩
  cases h : ftInfoRes env st (_index_name name) <;>
    simp [has_collection, isOkB, h]

/-- Claim C8: `create_data_points` against an absent collection raises
`CollectionNotFoundError` and writes nothing: the store is unchanged and
the only command issued is the existence probe (no `JSON.SET`). -/
theorem create_data_points_absent (env : Env) (st : Store) (coll : String)
    (pts : List DataPoint)
    (habs : (has_collection env st coll).1 = false) :
    create_data_points env st coll pts =
      (.error (.collectionNotFound ("Collection " ++ coll ++ " not found!")),
       st, [.ftInfoCmd (_index_name coll)]) := by
  unfold create_data_points
  rw [habs]
  simp [has_collection]

/-- Claim C8 witness. -/
theorem create_data_points_absent_witness :
    (has_collection env0 st0 "c").1 = false ∧
    create_data_points env0 st0 "c" [⟨"A", "hello", PyVal.none⟩] =
      (.error (.collectionNotFound "Collection c not found!"),
       st0, [.ftInfoCmd "index:c"]) :=
  ⟨rfl, create_data_points_absent env0 st0 "c" [⟨"A", "hello", PyVal.none⟩] rfl⟩

/-- Claim C10: `batch_search` on an absent collection returns the flat
empty list — a `[]` of length 0, not a per-query list of empty result
lists — whatever the number of query texts, and issues only the
existence probe. -/
theorem batch_search_absent_collection (env : Env) (st : Store) (coll : String)
    (texts : List String) (limit : Option Int) (wv : Bool) (thr : Option Rat)
    (habs : (has_collection env st coll).1 = false) :
    batch_search env st coll texts limit wv thr =
      (.ok ([] : List (List ScoredResult)), [.ftInfoCmd (_index_name coll)]) := by
  unfold batch_search
  rw [habs]
  simp [has_collection]

/-- Claim C10 witness (two query texts, yet a length-0 result). -/
theorem batch_search_absent_collection_witness :
    (has_collection env0 st0 "c").1 = false ∧
    batch_search env0 st0 "c" ["a", "b"] (some 5) false (some 1) =
      (.ok ([] : List (List ScoredResult)), [.ftInfoCmd "index:c"]) :=
  ⟨rfl, batch_search_absent_collection env0 st0 "c" ["a", "b"] (some 5) false
    (some 1) rfl⟩

/-- Claim C9: in `search` on an existing collection, an unset limit is
substituted by the collection's `num_docs` from `FT.INFO`; a resolved
limit ≤ 0 — whether substituted or caller-supplied — returns the empty
list at once, with no `FT.SEARCH` and no embedding call; and a positive
substituted limit reaches `FT.SEARCH` with exactly `num_docs` as the KNN
bound. -/
theorem search_limit_resolution (env : Env) (st : Store) (coll : String)
    (qt : Option String) (qv : Option (List Rat)) (wv : Bool)
    (hq : qt.isSome ∨ qv.isSome)
    (hex : (has_collection env st coll).1 = true) :
    (env.numDocs (_index_name coll) ≤ 0 →
      search env st coll qt qv Option.none wv =
        (.ok [], [.ftInfoCmd (_index_name coll), .ftInfoCmd (_index_name coll)])) ∧
    (0 < env.numDocs (_index_name coll) →
      Effect.ftSearchCmd (_index_name coll) (knnQuery (env.numDocs (_index_name coll))) ∈
        (search env st coll qt qv Option.none wv).2) ∧
    (∀ l : Int, l ≤ 0 →
      search env st coll qt qv (some l) wv =
        (.ok [], [.ftInfoCmd (_index_name coll)])) := by
  have hinfo := ftInfoRes_of_has env st coll hex
  refine ⟨?_, ?_, ?_⟩
  · intro hle
    rcases qt with _ | t <;> rcases qv with _ | v
    · simp at hq
    all_goals
      unfold search
      rw [hex, hinfo]
      simp [searchWithLimit, hle, has_collection]
  · intro hgt
    have hne : ¬ env.numDocs (_index_name coll) ≤ 0 := by omega
    rcases qt with _ | t <;> rcases qv with _ | v
    · simp at hq
    all_goals
      unfold search
      rw [hex, hinfo]
      simp [searchWithLimit, hne, has_collection]
  · intro l hle
    rcases qt with _ | t <;> rcases qv with _ | v
    · simp at hq
    all_goals
      unfold search
      rw [hex]
      simp [searchWithLimit, hle, has_collection]

/-- Claim C9 witness: a collection reporting zero documents resolves the
unset limit to 0 and returns empty with no search and no embedding. -/
theorem search_limit_resolution_witness :
    ((Option.some "q").isSome ∨ (Option.none : Option (List Rat)).isSome) ∧
    (has_collection envZero st1 "c").1 = true ∧
    (envZero.numDocs "index:c" ≤ 0 ∧
      search envZero st1 "c" (some "q") Option.none Option.none false =
        (.ok [], [.ftInfoCmd "index:c", .ftInfoCmd "index:c"])) :=
  ⟨Or.inl rfl, rfl,
   by decide,
   (search_limit_resolution envZero st1 "c" (some "q") Option.none false
      (Or.inl rfl) rfl).1 (by decide)⟩

/-- Recognizer for `FT.CREATE` commands on a given index. -/
def isFtCreate (idx : String) : Effect → Bool
  | .ftCreateCmd i => i == idx
  | _ => false

/-- Claim C4: `create_collection` is idempotent.  When `has_collection`
already reports the collection, the call is a no-op: unchanged store, ok
result, and no `FT.CREATE` issued (only the existence probe).  And
starting from a fault-free server on which the index is absent, two
sequential calls issue exactly one `FT.CREATE` between them. -/
theorem create_collection_idempotent (env : Env) (st : Store) (name : String)
    (hin : env.infoFault (_index_name name) = Option.none)
    (hcf : env.createFault (_index_name name) = Option.none) :
    ((has_collection env st name).1 = true →
      create_collection env st name =
        (.ok (), st, [.ftInfoCmd (_index_name name)])) ∧
    (_index_name name ∉ st.indexes →
      ((create_collection env st name).2.2 ++
        (create_collection env (create_collection env st name).2.1 name).2.2).countP
          (isFtCreate (_index_name name)) = 1) := by
  constructor
  · intro h
    unfold create_collection
    rw [h]
    simp [has_collection]
  · intro habs
    have h1 : (has_collection env st name).1 = false := by
      simp [has_collection, ftInfoRes, hin, isOkB, habs]
    have hfirst : create_collection env st name =
        (.ok (), { st with indexes := _index_name name :: st.indexes },
         [.ftInfoCmd (_index_name name), .ftCreateCmd (_index_name name)]) := by
      unfold create_collection
      rw [h1, hcf]
      simp [has_collection]
    have h2 : (has_collection env
        { st with indexes := _index_name name :: st.indexes } name).1 = true := by
      simp [has_collection, ftInfoRes, hin, isOkB]
    have hsecond : create_collection env
        { st with indexes := _index_name name :: st.indexes } name =
        (.ok (), { st with indexes := _index_name name :: st.indexes },
         [.ftInfoCmd (_index_name name)]) := by
      unfold create_collection
      rw [h2]
      simp [has_collection]
    rw [hfirst]
    simp only [hsecond]
    simp [isFtCreate]

/-- Claim C4 witness. -/
theorem create_collection_idempotent_witness :
    env0.infoFault "index:c" = Option.none ∧
    env0.createFault "index:c" = Option.none ∧
    ("index:c" ∉ st0.indexes ∧
      ((create_collection env0 st0 "c").2.2 ++
        (create_collection env0 (create_collection env0 st0 "c").2.1 "c").2.2).countP
          (isFtCreate "index:c") = 1) :=
  ⟨rfl, rfl, by simp [st0],
   (create_collection_idempotent env0 st0 "c" rfl rfl).2 (by simp [st0])⟩

/-- Filtering out one key from a keyset-unique document list removes
exactly one document when the key is present. -/
theorem filter_length_of_nodup (docs : List (String × PyVal)) (k : String)
    (hnd : (docs.map Prod.fst).Nodup)
    (hany : docs.any (fun kv => kv.1 == k) = true) :
    (docs.filter (fun kv => !(kv.1 == k))).length + 1 = docs.length := by
  induction docs with
  | nil => simp at hany
  | cons d ds ih =>
      rw [List.map_cons, List.nodup_cons] at hnd
      by_cases hdk : d.1 = k
      · have hds : ds.filter (fun kv => !(kv.1 == k)) = ds := by
          apply List.filter_eq_self.mpr
          intro kv hkv
          have hne : kv.1 ≠ k := by
            intro e
            exact hnd.1 (by rw [hdk, ← e]; exact List.mem_map_of_mem Prod.fst hkv)
          simp [hne]
        simp [List.filter_cons, hdk, hds]
      · have hany' : ds.any (fun kv => kv.1 == k) = true := by
          rcases List.any_eq_true.mp hany with ⟨kv, hkv, hp⟩
          rcases List.mem_cons.mp hkv with he | hm
          · exact absurd (by simpa using hp) (he ▸ hdk)
          · exact List.any_eq_true.mpr ⟨kv, hm, hp⟩
        have := ih hnd.2 hany'
        simp only [List.filter_cons, List.length_cons]
        have hkeep : (!(d.1 == k)) = true := by simp [hdk]
        rw [hkeep]
        simp only [if_true, List.length_cons]
        omega

/-- The bulk `DEL` count is the exact number of documents removed: over
a keyset-unique store, surviving documents plus the reported count equal
the original document count (and keyset uniqueness is preserved). -/
theorem delKeys_length (ks : List String) (docs : List (String × PyVal))
    (hnd : (docs.map Prod.fst).Nodup) :
    (delKeys ks docs).2.length + (delKeys ks docs).1 = docs.length ∧
    ((delKeys ks docs).2.map Prod.fst).Nodup := by
  induction ks generalizing docs with
  | nil => exact ⟨by simp [delKeys], by simpa [delKeys] using hnd⟩
  | cons k ks ih =>
      have hsub : ((docs.filter (fun kv => !(kv.1 == k))).map Prod.fst).Nodup :=
        hnd.sublist (List.Sublist.map Prod.fst (List.filter_sublist docs))
      obtain ⟨ihlen, ihnd⟩ := ih (docs.filter (fun kv => !(kv.1 == k))) hsub
      have hstep : delKeys (k :: ks) docs =
          ((if docs.any (fun kv => kv.1 == k) then 1 else 0) +
             (delKeys ks (docs.filter (fun kv => !(kv.1 == k)))).1,
           (delKeys ks (docs.filter (fun kv => !(kv.1 == k)))).2) := rfl
      rw [hstep]
      refine ⟨?_, ihnd⟩
      cases hany : docs.any (fun kv => kv.1 == k) with
      | false =>
          have hid : docs.filter (fun kv => !(kv.1 == k)) = docs := by
            apply List.filter_eq_self.mpr
            intro kv hkv
            have := List.any_eq_false.mp hany kv hkv
            simpa using this
          rw [hid] at ihlen ⊢
          simpa using ihlen
      | true =>
          have hone := filter_length_of_nodup docs k hnd hany
          simp only [if_true]
          omega

/-- A `DEL` whose keys all miss the store removes nothing and reports 0. -/
theorem delKeys_none_present (ks : List String) (docs : List (String × PyVal))
    (h : ∀ k ∈ ks, ∀ kv ∈ docs, kv.1 ≠ k) :
    delKeys ks docs = (0, docs) := by
  induction ks with
  | nil => rfl
  | cons k ks ih =>
      have hany : docs.any (fun kv => kv.1 == k) = false := by
        apply List.any_eq_false.mpr
        intro kv hkv
        simpa using h k (List.mem_cons_self k ks) kv hkv
      have hid : docs.filter (fun kv => !(kv.1 == k)) = docs := by
        apply List.filter_eq_self.mpr
        intro kv hkv
        simpa using h k (List.mem_cons_self k ks) kv hkv
      have ihr := ih (fun k2 hk2 kv hkv => h k2 (List.mem_cons_of_mem k hk2) kv hkv)
      have hstep : delKeys (k :: ks) docs =
          ((if docs.any (fun kv => kv.1 == k) then 1 else 0) +
             (delKeys ks (docs.filter (fun kv => !(kv.1 == k)))).1,
           (delKeys ks (docs.filter (fun kv => !(kv.1 == k)))).2) := rfl
      rw [hstep, hany, hid, ihr]
      simp

/-- Claim C5: a completed `delete_data_points(collection, ids)` maps the
ids to fully-qualified keys (`_key` = key prefix plus id), issues one
bulk `DEL` with exactly those keys, never errors, and returns
`{"deleted": n}` where `n` is the actual number of documents removed
(surviving + removed = original count); when no requested id exists the
count is 0 and the store is untouched. -/
theorem delete_data_points_spec (env : Env) (st : Store) (coll : String)
    (ids : List String)
    (hnd : (st.docs.map Prod.fst).Nodup) :
    (delete_data_points env st coll ids).1 =
      .ok (PyVal.dict [(.str "deleted",
        .int ((delKeys (ids.map (_key coll)) st.docs).1 : Int))]) ∧
    (delete_data_points env st coll ids).2.2 =
      [.delCmd (ids.map (_key coll))] ∧
    ((delete_data_points env st coll ids).2.1.docs.length +
      (delKeys (ids.map (_key coll)) st.docs).1 = st.docs.length) ∧
    ((∀ i ∈ ids, ∀ kv ∈ st.docs, kv.1 ≠ _key coll i) →
      (delKeys (ids.map (_key coll)) st.docs).1 = 0 ∧
      (delete_data_points env st coll ids).2.1 = st) := by
  refine ⟨rfl, rfl, (delKeys_length _ _ hnd).1, ?_⟩
  intro h
  have hz : delKeys (ids.map (_key coll)) st.docs = (0, st.docs) := by
    apply delKeys_none_present
    intro k hk kv hkv
    rcases List.mem_map.mp hk with ⟨i, hi, hik⟩
    exact hik ▸ h i hi kv hkv
  refine ⟨by rw [hz], ?_⟩
  show { st with docs := (delKeys (ids.map (_key coll)) st.docs).2 } = st
  rw [hz]

/-- Claim C5 witness: one existing and one missing id — exactly one
document removed, count 1 reported, one bulk delete issued. -/
theorem delete_data_points_spec_witness :
    (stDocs.docs.map Prod.fst).Nodup ∧
    ((delete_data_points env0 stDocs "c" ["a", "b"]).1 =
      .ok (PyVal.dict [(.str "deleted",
        .int ((delKeys (["a", "b"].map (_key "c")) stDocs.docs).1 : Int))]) ∧
     (delete_data_points env0 stDocs "c" ["a", "b"]).2.2 =
      [.delCmd (["a", "b"].map (_key "c"))] ∧
     ((delete_data_points env0 stDocs "c" ["a", "b"]).2.1.docs.length +
      (delKeys (["a", "b"].map (_key "c")) stDocs.docs).1 = stDocs.docs.length) ∧
     ((∀ i ∈ ["a", "b"], ∀ kv ∈ stDocs.docs, kv.1 ≠ _key "c" i) →
      (delKeys (["a", "b"].map (_key "c")) stDocs.docs).1 = 0 ∧
      (delete_data_points env0 stDocs "c" ["a", "b"]).2.1 = stDocs)) :=
  ⟨by simp [stDocs], delete_data_points_spec env0 stDocs "c" ["a", "b"]
    (by simp [stDocs])⟩

/-- A gathered batch succeeds exactly with the per-task results, aligned
positionally. -/
theorem gatherExcept_ok {α : Type} {rs : List (Except PyErr α)} {gs : List α}
    (h : gatherExcept rs = .ok gs) :
    gs.length = rs.length ∧
    ∀ i (h1 : i < rs.length) (h2 : i < gs.length),
      rs.get ⟨i, h1⟩ = .ok (gs.get ⟨i, h2⟩) := by
  induction rs generalizing gs with
  | nil =>
      unfold gatherExcept at h
      injection h with h
      subst h
      exact ⟨rfl, by intro i h1 _; exact absurd h1 (by simp)⟩
  | cons r rs ih =>
      cases r with
      | error e => unfold gatherExcept at h; simp at h
      | ok a =>
          unfold gatherExcept at h
          cases hrest : gatherExcept rs with
          | error e => rw [hrest] at h; simp at h
          | ok xs =>
              rw [hrest] at h
              injection h with h
              subst h
              obtain ⟨hl, hg⟩ := ih hrest
              refine ⟨by simp [hl], ?_⟩
              intro i h1 h2
              cases i with
              | zero => rfl
              | succ j => exact hg j (by simpa using h1) (by simpa using h2)

/-- The score predicate of the amended batch filter: score present and
strictly below the threshold. -/
def scoreBelow (thr : Rat) (r : ScoredResult) : Bool :=
  match r.score with
  | some s => decide (s < thr)
  | Option.none => false

/-- When the Python comprehension filter completes without a type error,
it computes exactly the strict-threshold filter. -/
theorem pyFilterScore_ok (thr : Rat) (g : List ScoredResult)
    (out : List ScoredResult)
    (h : pyFilterScore (some thr) g = .ok out) :
    out = g.filter (scoreBelow thr) := by
  induction g generalizing out with
  | nil =>
      unfold pyFilterScore at h
      injection h with h
      subst h
      rfl
  | cons r rs ih =>
      unfold pyFilterScore at h
      cases hs : r.score with
      | none => rw [hs] at h; simp [pyLtScore] at h
      | some s =>
          rw [hs] at h
          cases hrest : pyFilterScore (some thr) rs with
          | error e => rw [hrest] at h; simp [pyLtScore] at h
          | ok rest =>
              rw [hrest] at h
              simp only [pyLtScore] at h
              injection h with h
              subst h
              rw [List.filter_cons, ← ih rest hrest]
              by_cases hlt : s < thr
              · simp [scoreBelow, hs, hlt]
              · simp [scoreBelow, hs, hlt]

/-- A completed outer filter relates each output group to its input
group through `pyFilterScore`, positionally. -/
theorem filterAll_ok (thr : Option Rat) (gs out : List (List ScoredResult))
    (h : filterAll thr gs = .ok out) :
    out.length = gs.length ∧
    ∀ i (h1 : i < gs.length) (h2 : i < out.length),
      pyFilterScore thr (gs.get ⟨i, h1⟩) = .ok (out.get ⟨i, h2⟩) := by
  induction gs generalizing out with
  | nil =>
      unfold filterAll at h
      injection h with h
      subst h
      exact ⟨rfl, by intro i h1 _; exact absurd h1 (by simp)⟩
  | cons g gs ih =>
      unfold filterAll at h
      cases hg : pyFilterScore thr g with
      | error e => rw [hg] at h; simp at h
      | ok g' =>
          rw [hg] at h
          cases hrest : filterAll thr gs with
          | error e => rw [hrest] at h; simp at h
          | ok gs' =>
              rw [hrest] at h
              injection h with h
              subst h
              obtain ⟨hl, hr⟩ := ih gs' hrest
              refine ⟨by simp [hl], ?_⟩
              intro i h1 h2
              cases i with
              | zero => exact hg
              | succ j => exact hr j (by simpa using h1) (by simpa using h2)

/-- Claim C3: a completed `batch_search` on an existing collection
returns one result list per query text, aligned positionally, and the
i-th list is exactly the i-th query's `search` results (searching with
the embedding of the i-th text) filtered to scores strictly below the
threshold — empty sub-lists included. -/
theorem batch_search_threshold (env : Env) (st : Store) (coll : String)
    (texts : List String) (limit : Option Int) (wv : Bool) (thr : Rat)
    (rss : List (List ScoredResult)) (tr : List Effect)
    (hex : (has_collection env st coll).1 = true)
    (hok : batch_search env st coll texts limit wv (some thr) = (.ok rss, tr)) :
    rss.length = texts.length ∧
    ∀ i (h1 : i < texts.length) (h2 : i < rss.length),
      ∃ grp,
        (search env st coll Option.none (some (env.embedOne (texts.get ⟨i, h1⟩)))
            limit wv).1 = .ok grp ∧
        rss.get ⟨i, h2⟩ = grp.filter (scoreBelow thr) := by
  unfold batch_search at hok
  rw [hex] at hok
  simp only [Bool.true_eq_false, if_false] at hok
  cases hg : gatherExcept ((batchRuns env st coll texts limit wv).map Prod.fst) with
  | error e => rw [hg] at hok; simp at hok
  | ok groups =>
      rw [hg] at hok
      dsimp only [] at hok
      cases hf : filterAll (some thr) groups with
      | error e => rw [hf] at hok; simp at hok
      | ok filtered =>
          rw [hf] at hok
          dsimp only [] at hok
          have hfe : filtered = rss := by
            have := congrArg Prod.fst hok
            simpa using this
          subst hfe
          obtain ⟨hgl, hgp⟩ := gatherExcept_ok hg
          obtain ⟨hfl, hfp⟩ := filterAll_ok (some thr) groups filtered hf
          constructor
          · rw [hfl, hgl]; simp [batchRuns]
          · intro i h1 h2
            have hgi : i < groups.length := by
              rw [hgl]; simpa [batchRuns] using h1
            refine ⟨groups.get ⟨i, hgi⟩, ?_, ?_⟩
            · have hrun := hgp i (by simpa [batchRuns] using h1) hgi
              rw [← hrun]
              simp [batchRuns, List.get_eq_getElem, List.getElem_map]
            · have hfi := hfp i hgi h2
              exact pyFilterScore_ok thr _ _ hfi

/-- Claim C3 witness: two query texts against an existing collection,
two aligned (here empty) filtered result lists. -/
theorem batch_search_threshold_witness :
    (has_collection env0 st1 "c").1 = true ∧
    ((([[], []] : List (List ScoredResult)).length =
        (["a", "b"] : List String).length) ∧
     ∀ i (h1 : i < (["a", "b"] : List String).length)
        (h2 : i < ([[], []] : List (List ScoredResult)).length),
       ∃ grp,
         (search env0 st1 "c" Option.none
             (some (env0.embedOne ((["a", "b"] : List String).get ⟨i, h1⟩)))
             (some 5) false).1 = .ok grp ∧
         ([[], []] : List (List ScoredResult)).get ⟨i, h2⟩ =
           grp.filter (scoreBelow 1)) :=
  ⟨rfl,
   batch_search_threshold env0 st1 "c" ["a", "b"] (some 5) false 1 [[], []]
     (batchTrace env0 st1 "c" ["a", "b"] (some 5) false) rfl rfl⟩

/-- The decoder's conformity guard as a projection: the response mapping
when the raw reply is a list/tuple of length at least two whose second
element is a dict, else nothing. -/
def ftConform : PyVal → Option (List (PyVal × PyVal))
  | .list xs | .tuple xs =>
      if xs.length < 2 then Option.none
      else
        match (xs[1]? : Option PyVal) with
        | some (.dict mapping) => some mapping
        | _ => Option.none
  | _ => Option.none

/-- A response entry the decoder can handle without raising: its field
value is a mapping whose score field, when present, converts with
`float()`. -/
def entryBenign (kv : PyVal × PyVal) : Bool :=
  match kv.2 with
  | .dict fkvs =>
      pyBeq (fieldsGet fkvs bScoreKey (.str "__vector_score")) PyVal.none
        || isOkB (pyFloat (fieldsGet fkvs bScoreKey (.str "__vector_score")))
  | _ => false

/-- A benign entry decodes to a `ScoredResult` without raising. -/
theorem decodeEntry_benign (jl : String → Option PyVal) (k f : PyVal)
    (h : entryBenign (k, f) = true) :
    ∃ r, decodeEntry jl k f = .ok r := by
  cases f
  case dict fkvs =>
    unfold entryBenign at h
    simp only [Bool.or_eq_true] at h
    unfold decodeEntry
    dsimp only []
    cases hb : pyBeq (fieldsGet fkvs bScoreKey (.str "__vector_score")) PyVal.none with
    | true => exact ⟨_, rfl⟩
    | false =>
        rcases h with h | h
        · rw [hb] at h; exact absurd h (by simp)
        · cases hq : pyFloat (fieldsGet fkvs bScoreKey (.str "__vector_score")) with
          | error e => rw [hq] at h; simp [isOkB] at h
          | ok q => exact ⟨_, rfl⟩
  all_goals simp [entryBenign] at h

/-- A mapping of benign entries decodes without raising, yielding one
`ScoredResult` per entry. -/
theorem decodeEntries_benign (jl : String → Option PyVal)
    (m : List (PyVal × PyVal))
    (h : ∀ kv ∈ m, entryBenign kv = true) :
    ∃ rs, decodeEntries jl m = .ok rs ∧ rs.length = m.length := by
  induction m with
  | nil => exact ⟨[], rfl, rfl⟩
  | cons kv rest ih =>
      obtain ⟨r, hr⟩ := decodeEntry_benign jl kv.1 kv.2 (h kv (List.mem_cons_self kv rest))
      obtain ⟨rs, hrs, hlen⟩ := ih (fun kv2 hkv2 => h kv2 (List.mem_cons_of_mem kv hkv2))
      refine ⟨r :: rs, ?_, by simp [hlen]⟩
      unfold decodeEntries
      rw [hr, hrs]

/-- On a sequence failing the conformity guard the decoder body returns
the empty list. -/
theorem buildFromSeq_none (jl : String → Option PyVal) (xs : List PyVal)
    (h : (if xs.length < 2 then Option.none
          else match (xs[1]? : Option PyVal) with
               | some (.dict mapping) => some mapping
               | _ => Option.none) =
         (Option.none : Option (List (PyVal × PyVal)))) :
    buildFromSeq jl xs = .ok [] := by
  unfold buildFromSeq
  by_cases hlen : xs.length < 2
  · rw [if_pos hlen]
  · rw [if_neg hlen] at h
    rw [if_neg hlen]
    cases hget : (xs[1]? : Option PyVal) with
    | none => rfl
    | some v =>
        rw [hget] at h
        cases v <;> first | rfl | simp at h

/-- On a conforming sequence with benign entries the decoder body yields
one result per mapping entry. -/
theorem buildFromSeq_some (jl : String → Option PyVal) (xs : List PyVal)
    (mapping : List (PyVal × PyVal))
    (h : (if xs.length < 2 then Option.none
          else match (xs[1]? : Option PyVal) with
               | some (.dict m) => some m
               | _ => Option.none) = some mapping)
    (hben : ∀ kv ∈ mapping, entryBenign kv = true) :
    ∃ rs, buildFromSeq jl xs = .ok rs ∧ rs.length = mapping.length := by
  unfold buildFromSeq
  by_cases hlen : xs.length < 2
  · rw [if_pos hlen] at h; simp at h
  · rw [if_neg hlen] at h
    rw [if_neg hlen]
    cases hget : (xs[1]? : Option PyVal) with
    | none => rw [hget] at h; simp at h
    | some v =>
        rw [hget] at h
        rcases v with _ | b | n | q | s2 | bs | u | l | t | m
        all_goals try simp at h
        have hm : m = mapping := by simpa using h
        subst hm
        exact decodeEntries_benign jl m hben

/-- Claim C6 (amended): the decoder yields the empty list whenever the
raw input fails the conformity guard (it is not a list/tuple of length
at least two with a mapping second element), and on a conforming input
all of whose entries are benign — mapping field values with convertible
scores — it does not raise and yields exactly one `ScoredResult` per
entry.  (On non-benign conforming entries the decoder can raise; see
the counterexample.) -/
theorem decode_guarded_total (jl : String → Option PyVal) (raw : PyVal) :
    (ftConform raw = Option.none →
      _build_scored_results_from_ft jl raw = .ok []) ∧
    (∀ mapping, ftConform raw = some mapping →
      (∀ kv ∈ mapping, entryBenign kv = true) →
      ∃ rs, _build_scored_results_from_ft jl raw = .ok rs ∧
        rs.length = mapping.length) := by
  constructor
  · intro h
    cases raw
    case list xs => exact buildFromSeq_none jl xs h
    case tuple xs => exact buildFromSeq_none jl xs h
    all_goals rfl
  · intro mapping hm hben
    cases raw
    case list xs => exact buildFromSeq_some jl xs mapping hm hben
    case tuple xs => exact buildFromSeq_some jl xs mapping hm hben
    all_goals exact absurd hm (by simp [ftConform])

/-- A conforming reply whose single entry's field value is not a
mapping: Python's `b"id" in fields` / `fields.get` raises on it. -/
def rawBad : PyVal := .list [.int 0, .dict [(.bytes (asciiBytes "k"), .int 5)]]

/-- A three-element reply (hence not a two-element tuple/array) whose
second element is a mapping: the decoder still decodes it, so the
length-based reading of the claim fails as well. -/
def rawThree : PyVal :=
  .list [.int 0, .dict [(.bytes (asciiBytes "k"), .dict [])], .int 7]

/-- Claim C6 counterexample: the decoder does raise — `rawBad` passes
the guard (two-element list, dict second element) yet decoding raises a
`TypeError` because the entry's field value is the integer 5, not a
mapping; and `rawThree`, which is not a two-element sequence, yields a
non-empty result rather than the empty list. -/
theorem decode_claim_counterexample :
    _build_scored_results_from_ft jl0 rawBad = .error .typeError ∧
    _build_scored_results_from_ft jl0 rawThree =
      .ok [⟨.str "k", [], Option.none⟩] :=
  ⟨rfl, rfl⟩

/-- A conforming benign reply: one entry with id field and score 0.5. -/
def rawGood : PyVal :=
  .list [.int 1,
    .dict [(.bytes (asciiBytes "k"),
      .dict [(bIdKey, .str "A"), (bScoreKey, .float (1 / 2))])]]

/-- The mapping inside `rawGood`. -/
def mGood : List (PyVal × PyVal) :=
  [(.bytes (asciiBytes "k"),
    .dict [(bIdKey, .str "A"), (bScoreKey, .float (1 / 2))])]

/-- Claim C6 witness: `rawGood` conforms, its entry is benign, and the
decoder yields exactly one `ScoredResult`. -/
theorem decode_guarded_total_witness :
    ftConform rawGood = some mGood ∧
    (∀ kv ∈ mGood, entryBenign kv = true) ∧
    (∃ rs, _build_scored_results_from_ft jl0 rawGood = .ok rs ∧
      rs.length = mGood.length) :=
  ⟨rfl,
   by intro kv hkv; simp only [mGood, List.mem_singleton] at hkv; subst hkv; rfl,
   (decode_guarded_total jl0 rawGood).2 mGood rfl
     (by intro kv hkv; simp only [mGood, List.mem_singleton] at hkv; subst hkv; rfl)⟩
